import Mathlib

/-!
Shallow embedding of the Hyperliquid trade capability
(`createTradeCapability(...).run` in `capabilities/trade.ts`).

Conventions of the embedding:
* JavaScript numeric arithmetic is modelled exactly over `ℚ`; `Math.round`
  (round half toward +∞) is `jsRound`, and `Number.prototype.toFixed`
  (round to `d` fractional digits, ties away from zero for the positive
  values arising here) is `toFixedVal`, which returns the numeric value of
  the formatted string.
* Every outbound call made by `run` is an oracle recorded in a `World`:
  a `fetch` call can throw, come back with a non-ok HTTP status, or
  succeed (`Fetch`); an SDK call either resolves or throws
  (`Except String`).  Thrown outcomes propagate to the top-level
  `try/catch`, which is the `run` wrapper around `tradeBody`.
* The JSON objects returned by the capability are modelled as the
  structure `TradeResult`; a field that `JSON.stringify` would drop
  (JavaScript `undefined`) is `none`.
* As instrumentation, the pipeline also reports the order payload passed
  to `exchClient.order` (`OrderPayload`), so that "the pipeline reached
  order submission" is a statable property.  `none` means the order call
  was never reached.
-/

namespace Hyperliquid

/-- Trade side, the zod enum `['buy', 'sell']`. -/
inductive Side where
  | buy
  | sell
deriving DecidableEq, Repr

/-- The string carried by `args.side`. -/
def Side.str : Side → String
  | Side.buy => "buy"
  | Side.sell => "sell"

/-- The boolean `args.side === 'buy'` used for the order's `b` field. -/
def Side.isBuy : Side → Bool
  | Side.buy => true
  | Side.sell => false

/-- The argument object of the `trade` capability (its zod schema). -/
structure TradeRequest where
  coin : String
  side : Side
  size : String
  leverage : Option String
  reduceOnly : Option Bool
  pk_name : String
  vault_name : Option String
deriving DecidableEq, Repr

/-- One entry of the workspace secret listing (`{id, name}`). -/
structure Secret where
  id : Nat
  name : String
deriving DecidableEq, Repr

/-- Outcome of a `fetch` call: the promise rejects (`thrown`), resolves
with `response.ok = false` (`httpError`), or resolves ok with a payload. -/
inductive Fetch (α : Type) where
  | thrown (msg : String)
  | httpError (status : Nat)
  | ok (v : α)
deriving DecidableEq, Repr

/-- One entry of `meta.universe` (`{name, szDecimals}`). -/
structure AssetInfo where
  name : String
  szDecimals : Nat
deriving DecidableEq, Repr

/-- The `status.filled` object of an exchange order status. -/
structure FilledData where
  avgPx : Option String
  totalSz : String
  oid : Nat
deriving DecidableEq, Repr

/-- A loosely-typed per-order status object from the exchange; each of the
three recognised fields may or may not be present (`'filled' in status`
tests key presence). -/
structure RawStatus where
  filled : Option FilledData
  err : Option String
  resting : Option Nat
deriving DecidableEq, Repr

/-- The `response.data` object (`{statuses}`). -/
structure OrderData where
  statuses : List RawStatus
deriving DecidableEq, Repr

/-- The `response` object of the SDK's order reply (`{type, data?}`). -/
structure OrderResponse where
  rtype : String
  data : Option OrderData
deriving DecidableEq, Repr

/-- The whole value returned by `exchClient.order` (`{response}`). -/
structure OrderResult where
  response : OrderResponse
deriving DecidableEq, Repr

/-- The environment one invocation of `run` observes: the action context,
the process environment and one outcome per outbound call, in program
order.  `meta()` is called twice (inside the leverage step and at step 5),
so it appears twice; only `meta.universe` is consumed, so the field holds
the universe list directly. -/
structure World where
  workspaceId : Option Nat
  apiKey : Option String
  secretsList : Fetch (List Secret)
  secretValue : Nat → Fetch String
  allMids : Except String (List (String × ℚ))
  metaLev : Except String (List AssetInfo)
  updateLeverage : Except String Unit
  metaMain : Except String (List AssetInfo)
  order : Except String OrderResult

/-- The JSON result object returned by the capability.  Absent fields
(JavaScript `undefined`, dropped by `JSON.stringify`) are `none`. -/
structure TradeResult where
  success : Bool
  error : Option String := none
  availableSecrets : Option (List String) := none
  coin : Option String := none
  side : Option String := none
  size : Option String := none
  leverage : Option String := none
  avgFillPrice : Option String := none
  totalFilled : Option String := none
  oid : Option Nat := none
  status : Option String := none
  message : Option String := none
  response : Option OrderResult := none
deriving DecidableEq, Repr

/-- Instrumentation: the order passed to `exchClient.order`, together with
the wallet/vault identity the client was constructed with. -/
structure OrderPayload where
  asset : Nat
  isBuy : Bool
  limitPrice : ℚ
  size : String
  reduceOnly : Bool
  wallet : String
  vaultAddress : Option String
deriving DecidableEq, Repr

/-- A bare `{error, success:false}` result. -/
def errResult (msg : String) : TradeResult :=
  { success := false, error := some msg }

/-- The result built by the top-level `catch` block:
`{error: err?.message || 'Unknown error', success: false}`. -/
def catchResult (msg : String) : TradeResult :=
  { success := false, error := some (if msg.isEmpty then "Unknown error" else msg) }

/-! ### Price quantizer (step 6 of `run`) -/

/-- `args.side === 'buy' ? 1.002 : 0.998` — the 0.2% slippage bias. -/
def priceAdjustment : Side → ℚ
  | Side.buy => 1002/1000
  | Side.sell => 998/1000

/-- `szDecimals >= 5 ? 1 : szDecimals >= 4 ? 0.1 : szDecimals >= 3 ? 0.01 : 0.001`. -/
def tickSize (szDecimals : Nat) : ℚ :=
  if szDecimals ≥ 5 then 1
  else if szDecimals ≥ 4 then 1/10
  else if szDecimals ≥ 3 then 1/100
  else 1/1000

/-- `szDecimals >= 5 ? 0 : szDecimals >= 4 ? 1 : szDecimals >= 3 ? 2 : 3`
— the digit count handed to `toFixed`. -/
def priceDecimals (szDecimals : Nat) : Nat :=
  if szDecimals ≥ 5 then 0
  else if szDecimals ≥ 4 then 1
  else if szDecimals ≥ 3 then 2
  else 3

/-- JavaScript `Math.round`: round half toward positive infinity. -/
def jsRound (x : ℚ) : ℤ := ⌊x + 1/2⌋

/-- Numeric value of `x.toFixed(d)`: `x` rounded to `d` fractional digits
(for the nonnegative values arising here the tie rule agrees with
`jsRound`). -/
def toFixedVal (x : ℚ) (d : Nat) : ℚ := (jsRound (x * 10 ^ d) : ℚ) / 10 ^ d

/-- The full limit-price computation of step 6:
`(Math.round(rawPrice / tickSize) * tickSize).toFixed(priceDecimals)`,
where `rawPrice = parseFloat(coinPrice) * priceAdjustment`.  Returns the
numeric value of the produced price string. -/
def limitPrice (coinPrice : ℚ) (side : Side) (szDecimals : Nat) : ℚ :=
  toFixedVal ((jsRound (coinPrice * priceAdjustment side / tickSize szDecimals) : ℚ)
      * tickSize szDecimals)
    (priceDecimals szDecimals)

/-! ### Secret value transport (step 1) -/

/-- `(await response.text()).replace(/^"|"$/g, '')` on the character list:
the global regex removes a quote anchored at the start, then a quote
anchored at the end of what remains. -/
def stripQuotesL (l : List Char) : List Char :=
  let l1 := if l.head? = some '"' then l.tail else l
  if l1.getLast? = some '"' then l1.dropLast else l1

/-- `raw.replace(/^"|"$/g, '')` on strings. -/
def stripQuotes (s : String) : String := String.mk (stripQuotesL s.data)

/-! ### Asset lookup (steps 4 and 5) -/

/-- `meta.universe.findIndex(u => u.name === coin)` paired with the element
read back at that index (`meta.universe[assetIndex]`). -/
def findAsset (univ : List AssetInfo) (coin : String) : Option (Nat × AssetInfo) :=
  match univ with
  | [] => none
  | a :: rest =>
    if a.name == coin then some (0, a)
    else (findAsset rest coin).map (fun p => (p.1 + 1, p.2))

/-! ### Vault resolution (step 1, lines 112–114 and 157–168) -/

/-- Resolution of the optional vault address: look the name up in the
already-fetched listing; if found, fetch its value.  A missing name or a
non-ok value response leaves `VAULT_ADDRESS` undefined and the pipeline
continues; a *thrown* value fetch is not locally caught and propagates. -/
def resolveVault (w : World) (secrets : List Secret) (req : TradeRequest) :
    Except String (Option String) :=
  match req.vault_name with
  | none => Except.ok none
  | some vn =>
    match List.find? (fun s => s.name == vn) secrets with
    | none => Except.ok none
    | some vs =>
      match w.secretValue vs.id with
      | Fetch.thrown e => Except.error e
      | Fetch.httpError _ => Except.ok none
      | Fetch.ok raw => Except.ok (some (stripQuotes raw))

/-! ### Leverage step (step 4, lines 213–237) -/

/-- The `if (args.leverage) { try { ... } catch { continue } }` block.
`some r` means the block executed `return r` (the early return for an
asset missing from the universe — a plain `return` inside `try` is *not*
caught); `none` means the pipeline continues.  A thrown `meta()` or
`updateLeverage()` is caught by the local `catch`, which only logs. -/
def leverageStep (w : World) (req : TradeRequest) : Option TradeResult :=
  match req.leverage with
  | none => none
  | some _ =>
    match w.metaLev with
    | Except.error _ => none
    | Except.ok univ =>
      match findAsset univ req.coin with
      | none => some (errResult ("Asset " ++ req.coin ++ " not found in universe"))
      | some _ =>
        match w.updateLeverage with
        | Except.error _ => none
        | Except.ok _ => none

/-! ### Outcome classification (lines 297–356) -/

/-- Classification of the exchange reply into the returned JSON object,
mirroring the `if`/`else if` chain of the source.  `lp` is the computed
limit price: it is in scope at classification time but feeds only the
console log line for a fill with absent `avgPx`, never the returned
object. -/
def classifyOutcome (req : TradeRequest) (lp : ℚ) (r : OrderResult) : TradeResult :=
  if r.response.rtype == "order" then
    match r.response.data with
    | some d =>
      match d.statuses with
      | st :: _ =>
        match st.filled with
        | some f =>
          { success := true
            coin := some req.coin
            side := some req.side.str
            size := some req.size
            leverage := req.leverage
            avgFillPrice := f.avgPx
            totalFilled := some f.totalSz
            oid := some f.oid
            message := some ("Successfully "
              ++ (if req.side.isBuy then "longed" else "shorted")
              ++ " " ++ req.size ++ " " ++ req.coin) }
        | none =>
          match st.err with
          | some m =>
            { success := false
              error := some m
              coin := some req.coin
              side := some req.side.str }
          | none =>
            match st.resting with
            | some oid =>
              { success := true
                status := some "resting"
                oid := some oid
                message := some "Order placed and waiting to be filled"
                coin := some req.coin
                side := some req.side.str }
            | none =>
              { success := false
                error := some "Unexpected response from exchange"
                response := some r }
      | [] =>
        { success := false
          error := some "Unexpected response from exchange"
          response := some r }
    | none =>
      { success := false
        error := some "Unexpected response from exchange"
        response := some r }
  else
    { success := false
      error := some "Unexpected response from exchange"
      response := some r }

/-! ### The orchestrator -/

/-- The body of the `try` block of `run`, in program order.  `Except.error`
is an uncaught exception travelling to the top-level `catch`;
`Except.ok (result, submitted)` is an executed `return`, with `submitted`
the order payload if `exchClient.order` was reached. -/
def tradeBody (req : TradeRequest) (w : World) :
    Except String (TradeResult × Option OrderPayload) :=
  match w.workspaceId with
  | none => Except.ok (errResult "Workspace ID is required to fetch secrets", none)
  | some _ =>
    match w.apiKey with
    | none => Except.ok (errResult "OPENSERV_API_KEY not configured", none)
    | some _ =>
      match w.secretsList with
      | Fetch.thrown e => Except.error e
      | Fetch.httpError st => Except.ok (errResult ("Failed to list secrets: " ++ toString st), none)
      | Fetch.ok secrets =>
        match List.find? (fun s => s.name == req.pk_name) secrets with
        | none =>
          Except.ok ({ success := false
                       error := some ("Secret \"" ++ req.pk_name
                         ++ "\" not found in OpenServ workspace")
                       availableSecrets := some (secrets.map Secret.name) }, none)
        | some pkSecret =>
          match w.secretValue pkSecret.id with
          | Fetch.thrown e => Except.error e
          | Fetch.httpError st =>
            Except.ok (errResult ("Failed to get \"" ++ req.pk_name
              ++ "\" value: " ++ toString st), none)
          | Fetch.ok pkRaw =>
            match resolveVault w secrets req with
            | Except.error e => Except.error e
            | Except.ok vaultAddress =>
              match w.allMids with
              | Except.error e => Except.error e
              | Except.ok mids =>
                match List.lookup req.coin mids with
                | none =>
                  Except.ok (errResult ("Coin \"" ++ req.coin
                    ++ "\" not found. Check symbol (e.g., \"BTC\", \"ETH\")"), none)
                | some coinPrice =>
                  match leverageStep w req with
                  | some r => Except.ok (r, none)
                  | none =>
                    match w.metaMain with
                    | Except.error e => Except.error e
                    | Except.ok univ =>
                      match findAsset univ req.coin with
                      | none =>
                        Except.ok (errResult ("Asset " ++ req.coin ++ " not found"), none)
                      | some (assetIndex, assetInfo) =>
                        let lp := limitPrice coinPrice req.side assetInfo.szDecimals
                        let payload : OrderPayload :=
                          { asset := assetIndex
                            isBuy := req.side.isBuy
                            limitPrice := lp
                            size := req.size
                            reduceOnly := req.reduceOnly.getD false
                            wallet := stripQuotes pkRaw
                            vaultAddress := vaultAddress }
                        match w.order with
                        | Except.error e => Except.error e
                        | Except.ok orderResult =>
                          Except.ok (classifyOutcome req lp orderResult, some payload)

/-- The whole capability `run`: the `try` body wrapped in the top-level
`catch`, which converts any uncaught exception into
`{error: err?.message || 'Unknown error', success: false}`. -/
def run (req : TradeRequest) (w : World) : TradeResult × Option OrderPayload :=
  match tradeBody req w with
  | Except.ok r => r
  | Except.error e => (catchResult e, none)

/-! ### Reference definitions written from the spec, for refinement claims -/

/-- Modelled from the spec (§4.3): the reference quantizer — slippage bias
1.002 (buy) / 0.998 (sell), tick size and decimal count from the explicit
table (≥5 → 1/0, 4 → 0.1/1, 3 → 0.01/2, <3 → 0.001/3), biased price
rounded to the nearest multiple of the tick, formatted to that many
fractional digits. -/
def quantizeSpec (rawPrice : ℚ) (side : Side) (sizeDecimals : Nat) : ℚ :=
  toFixedVal
    ((jsRound ((rawPrice * (match side with | Side.buy => 1002/1000 | Side.sell => 998/1000)) /
        (if sizeDecimals ≥ 5 then (1 : ℚ) else if sizeDecimals = 4 then 1/10
         else if sizeDecimals = 3 then 1/100 else 1/1000)) : ℚ) *
      (if sizeDecimals ≥ 5 then (1 : ℚ) else if sizeDecimals = 4 then 1/10
       else if sizeDecimals = 3 then 1/100 else 1/1000))
    (if sizeDecimals ≥ 5 then 0 else if sizeDecimals = 4 then 1
     else if sizeDecimals = 3 then 2 else 3)

/-- The spec's `OrderOutcome` tagged union (§3). -/
inductive OrderOutcome where
  | filledO (avgPx : Option String) (totalSz : String) (oid : Nat)
  | restingO (oid : Nat)
  | rejected (reason : String)
  | malformed (raw : OrderResult)
deriving DecidableEq, Repr

/-- Modelled from the spec (§4.6, as amended): shape-by-shape outcome
classification, the reported average price taken verbatim (possibly
absent). -/
def classifySpec (r : OrderResult) : OrderOutcome :=
  if r.response.rtype == "order" then
    match r.response.data with
    | some d =>
      match d.statuses with
      | st :: _ =>
        match st.filled, st.err, st.resting with
        | some f, _, _ => OrderOutcome.filledO f.avgPx f.totalSz f.oid
        | none, some m, _ => OrderOutcome.rejected m
        | none, none, some oid => OrderOutcome.restingO oid
        | none, none, none => OrderOutcome.malformed r
      | [] => OrderOutcome.malformed r
    | none => OrderOutcome.malformed r
  else OrderOutcome.malformed r

/-- Modelled from the spec (§6): rendering of each `OrderOutcome` variant
as the caller-facing result object. -/
def outcomeToResult (req : TradeRequest) : OrderOutcome → TradeResult
  | OrderOutcome.filledO avgPx totalSz oid =>
    { success := true
      coin := some req.coin
      side := some req.side.str
      size := some req.size
      leverage := req.leverage
      avgFillPrice := avgPx
      totalFilled := some totalSz
      oid := some oid
      message := some ("Successfully "
        ++ (if req.side.isBuy then "longed" else "shorted")
        ++ " " ++ req.size ++ " " ++ req.coin) }
  | OrderOutcome.rejected m =>
    { success := false, error := some m, coin := some req.coin, side := some req.side.str }
  | OrderOutcome.restingO oid =>
    { success := true
      status := some "resting"
      oid := some oid
      message := some "Order placed and waiting to be filled"
      coin := some req.coin
      side := some req.side.str }
  | OrderOutcome.malformed raw =>
    { success := false
      error := some "Unexpected response from exchange"
      response := some raw }

/-! ### Quantizer lemmas -/

lemma tickSize_pos (sz : Nat) : 0 < tickSize sz := by
  unfold tickSize; split_ifs <;> norm_num

lemma tick_mul_pow (sz : Nat) : tickSize sz * 10 ^ priceDecimals sz = 1 := by
  unfold tickSize priceDecimals; split_ifs <;> norm_num

lemma jsRound_intCast (k : ℤ) : jsRound (k : ℚ) = k := by
  unfold jsRound
  rw [Int.floor_int_add]
  norm_num

/-- Formatting with `toFixed` is exact on multiples of the tick size,
because the tick and the digit count always match. -/
lemma toFixed_tickMultiple (k : ℤ) (sz : Nat) :
    toFixedVal ((k : ℚ) * tickSize sz) (priceDecimals sz) = (k : ℚ) * tickSize sz := by
  have h := tick_mul_pow sz
  have hp : (10 : ℚ) ^ priceDecimals sz ≠ 0 := by positivity
  unfold toFixedVal
  rw [mul_assoc, h, mul_one, jsRound_intCast, div_eq_iff hp, mul_assoc, h, mul_one]

/-- The computed limit price is the rounded-to-tick biased price. -/
lemma limitPrice_eq (p : ℚ) (side : Side) (sz : Nat) :
    limitPrice p side sz
      = (jsRound (p * priceAdjustment side / tickSize sz) : ℚ) * tickSize sz := by
  unfold limitPrice
  exact toFixed_tickMultiple _ _

/-- Quantizing a price that is already `k` ticks, for a buy with
`0 ≤ k < 250`, returns it unchanged: the 0.2% bias is rounded away. -/
lemma limitPrice_tickM_buy (k : ℤ) (sz : Nat) (hk0 : 0 ≤ k) (hk : k < 250) :
    limitPrice ((k : ℚ) * tickSize sz) Side.buy sz = (k : ℚ) * tickSize sz := by
  have ht := tickSize_pos sz
  rw [limitPrice_eq]
  have harg : (k : ℚ) * tickSize sz * priceAdjustment Side.buy / tickSize sz
      = (k : ℚ) * priceAdjustment Side.buy := by
    rw [mul_right_comm, mul_div_cancel_right₀ _ (ne_of_gt ht)]
  rw [harg]
  have hc0 : (0 : ℚ) ≤ (k : ℚ) := by exact_mod_cast hk0
  have hc1 : (k : ℚ) < 250 := by exact_mod_cast hk
  have hr : jsRound ((k : ℚ) * priceAdjustment Side.buy) = k := by
    unfold jsRound
    have he : (k : ℚ) * priceAdjustment Side.buy + 1/2
        = (k : ℚ) + ((k : ℚ)/500 + 1/2) := by
      simp only [priceAdjustment]; ring
    rw [he, Int.floor_int_add]
    have h0 : ⌊(k : ℚ)/500 + 1/2⌋ = 0 := by
      rw [Int.floor_eq_zero_iff, Set.mem_Ico]
      constructor <;> linarith
    rw [h0, add_zero]
  rw [hr]

/-- Quantizing a price that is already `k` ticks, for a sell with
`0 ≤ k ≤ 250`, returns it unchanged. -/
lemma limitPrice_tickM_sell (k : ℤ) (sz : Nat) (hk0 : 0 ≤ k) (hk : k ≤ 250) :
    limitPrice ((k : ℚ) * tickSize sz) Side.sell sz = (k : ℚ) * tickSize sz := by
  have ht := tickSize_pos sz
  rw [limitPrice_eq]
  have harg : (k : ℚ) * tickSize sz * priceAdjustment Side.sell / tickSize sz
      = (k : ℚ) * priceAdjustment Side.sell := by
    rw [mul_right_comm, mul_div_cancel_right₀ _ (ne_of_gt ht)]
  rw [harg]
  have hc0 : (0 : ℚ) ≤ (k : ℚ) := by exact_mod_cast hk0
  have hc1 : (k : ℚ) ≤ 250 := by exact_mod_cast hk
  have hr : jsRound ((k : ℚ) * priceAdjustment Side.sell) = k := by
    unfold jsRound
    have he : (k : ℚ) * priceAdjustment Side.sell + 1/2
        = (k : ℚ) + (1/2 - (k : ℚ)/500) := by
      simp only [priceAdjustment]; ring
    rw [he, Int.floor_int_add]
    have h0 : ⌊1/2 - (k : ℚ)/500⌋ = 0 := by
      rw [Int.floor_eq_zero_iff, Set.mem_Ico]
      constructor <;> linarith
    rw [h0, add_zero]
  rw [hr]

/-- Quantizing a price that is already `k` ticks, for a buy with
`250 ≤ k`, moves it up by at least one tick: the 0.2% bias survives
rounding. -/
lemma limitPrice_tickM_buy_large (k : ℤ) (sz : Nat) (hk : 250 ≤ k) :
    (k : ℚ) * tickSize sz + tickSize sz
      ≤ limitPrice ((k : ℚ) * tickSize sz) Side.buy sz := by
  have ht := tickSize_pos sz
  rw [limitPrice_eq]
  have harg : (k : ℚ) * tickSize sz * priceAdjustment Side.buy / tickSize sz
      = (k : ℚ) * priceAdjustment Side.buy := by
    rw [mul_right_comm, mul_div_cancel_right₀ _ (ne_of_gt ht)]
  rw [harg]
  have hc : (250 : ℚ) ≤ (k : ℚ) := by exact_mod_cast hk
  have hr : k + 1 ≤ jsRound ((k : ℚ) * priceAdjustment Side.buy) := by
    unfold jsRound
    have he : (k : ℚ) * priceAdjustment Side.buy + 1/2
        = (k : ℚ) + ((k : ℚ)/500 + 1/2) := by
      simp only [priceAdjustment]; ring
    rw [he, Int.floor_int_add]
    have h1 : 1 ≤ ⌊(k : ℚ)/500 + 1/2⌋ := by
      apply Int.le_floor.mpr
      push_cast
      linarith
    linarith
  have hrq : ((k : ℚ) + 1) ≤ (jsRound ((k : ℚ) * priceAdjustment Side.buy) : ℚ) := by
    exact_mod_cast hr
  have hmul := mul_le_mul_of_nonneg_right hrq (le_of_lt ht)
  have hexp : ((k : ℚ) + 1) * tickSize sz = (k : ℚ) * tickSize sz + tickSize sz := by ring
  linarith [hexp ▸ hmul]

/-- Quantizing a price that is already `k` ticks, for a sell with
`250 < k`, moves it down by at least one tick. -/
lemma limitPrice_tickM_sell_large (k : ℤ) (sz : Nat) (hk : 250 < k) :
    limitPrice ((k : ℚ) * tickSize sz) Side.sell sz
      ≤ (k : ℚ) * tickSize sz - tickSize sz := by
  have ht := tickSize_pos sz
  rw [limitPrice_eq]
  have harg : (k : ℚ) * tickSize sz * priceAdjustment Side.sell / tickSize sz
      = (k : ℚ) * priceAdjustment Side.sell := by
    rw [mul_right_comm, mul_div_cancel_right₀ _ (ne_of_gt ht)]
  rw [harg]
  have hc : (250 : ℚ) < (k : ℚ) := by exact_mod_cast hk
  have hr : jsRound ((k : ℚ) * priceAdjustment Side.sell) ≤ k - 1 := by
    unfold jsRound
    have he : (k : ℚ) * priceAdjustment Side.sell + 1/2
        = (k : ℚ) + (1/2 - (k : ℚ)/500) := by
      simp only [priceAdjustment]; ring
    rw [he, Int.floor_int_add]
    have h1 : ⌊1/2 - (k : ℚ)/500⌋ < 0 := by
      apply Int.floor_lt.mpr
      push_cast
      linarith
    omega
  have hrq : (jsRound ((k : ℚ) * priceAdjustment Side.sell) : ℚ) ≤ (k : ℚ) - 1 := by
    exact_mod_cast hr
  have hmul := mul_le_mul_of_nonneg_right hrq (le_of_lt ht)
  have hexp : ((k : ℚ) - 1) * tickSize sz = (k : ℚ) * tickSize sz - tickSize sz := by ring
  linarith [hexp ▸ hmul]

/-! ### Claims C4–C7 -/

/-- Claim C4 (confirmed): the implemented limit-price computation equals
the reference quantizer written from the spec's words — bias 1.002/0.998,
tick and decimal table, round to nearest tick multiple, format — and in
particular a buy at raw price 50000 with `szDecimals = 5` yields 50100. -/
theorem quantizer_matches_reference :
    (∀ (p : ℚ) (side : Side) (sz : Nat), limitPrice p side sz = quantizeSpec p side sz) ∧
    limitPrice 50000 Side.buy 5 = 50100 := by
  constructor
  · intro p side sz
    unfold limitPrice quantizeSpec tickSize priceDecimals
    cases side <;> simp only [priceAdjustment] <;> split_ifs <;> first | rfl | omega
  · norm_num [limitPrice, toFixedVal, jsRound, tickSize, priceDecimals, priceAdjustment]

/-- Claim C5, counterexample: a buy at the positive raw price 10.4 with
`szDecimals = 5` (tick 1) is quantized to 10, strictly below the raw
price — the 0.2% upward bias is rounded away for prices below 250 ticks. -/
theorem buy_quantized_below_raw : limitPrice (52/5) Side.buy 5 < 52/5 := by
  norm_num [limitPrice, toFixedVal, jsRound, tickSize, priceDecimals, priceAdjustment]

/-- Claim C5 (amended): whenever the raw price is at least 250 tick sizes,
the buy-side quantized price is ≥ the raw price and the sell-side
quantized price is ≤ the raw price. -/
theorem quantize_slippage_direction (raw : ℚ) (sz : Nat)
    (h : 250 * tickSize sz ≤ raw) :
    raw ≤ limitPrice raw Side.buy sz ∧ limitPrice raw Side.sell sz ≤ raw := by
  have ht := tickSize_pos sz
  constructor
  · rw [limitPrice_eq]
    have h1 : raw * priceAdjustment Side.buy / tickSize sz - 1/2
        < (jsRound (raw * priceAdjustment Side.buy / tickSize sz) : ℚ) := by
      unfold jsRound
      have := Int.sub_one_lt_floor (raw * priceAdjustment Side.buy / tickSize sz + 1/2)
      linarith
    have h2 := mul_lt_mul_of_pos_right h1 ht
    have h3 : raw * priceAdjustment Side.buy / tickSize sz * tickSize sz
        = raw * priceAdjustment Side.buy := div_mul_cancel₀ _ (ne_of_gt ht)
    have h4 : (raw * priceAdjustment Side.buy / tickSize sz - 1/2) * tickSize sz
        = raw * (1002/1000) - tickSize sz / 2 := by
      rw [sub_mul, h3]
      simp only [priceAdjustment]
      ring
    rw [h4] at h2
    linarith
  · rw [limitPrice_eq]
    have h1 : (jsRound (raw * priceAdjustment Side.sell / tickSize sz) : ℚ)
        ≤ raw * priceAdjustment Side.sell / tickSize sz + 1/2 := by
      unfold jsRound
      have := Int.floor_le (raw * priceAdjustment Side.sell / tickSize sz + 1/2)
      linarith
    have h2 := mul_le_mul_of_nonneg_right h1 (le_of_lt ht)
    have h3 : raw * priceAdjustment Side.sell / tickSize sz * tickSize sz
        = raw * priceAdjustment Side.sell := div_mul_cancel₀ _ (ne_of_gt ht)
    have h4 : (raw * priceAdjustment Side.sell / tickSize sz + 1/2) * tickSize sz
        = raw * (998/1000) + tickSize sz / 2 := by
      rw [add_mul, h3]
      simp only [priceAdjustment]
      ring
    rw [h4] at h2
    linarith

/-- Claim C5 witness: at raw price 50000 (≥ 250 ticks for `szDecimals = 5`)
the bias direction invariant holds. -/
theorem quantize_slippage_direction_witness :
    (50000 : ℚ) ≤ limitPrice 50000 Side.buy 5 ∧ limitPrice 50000 Side.sell 5 ≤ 50000 :=
  quantize_slippage_direction 50000 5 (by norm_num [tickSize])

/-- Claim C6, counterexample: quantizing the quantizer's own output moves
it again — a buy at 50000 gives 50100, re-quantizing 50100 gives 50200,
because the 0.2% bias is re-applied and 50100 × 0.002 > half a tick. -/
theorem quantize_not_idempotent :
    limitPrice (limitPrice 50000 Side.buy 5) Side.buy 5 ≠ limitPrice 50000 Side.buy 5 := by
  have h1 : limitPrice 50000 Side.buy 5 = 50100 := by
    norm_num [limitPrice, toFixedVal, jsRound, tickSize, priceDecimals, priceAdjustment]
  rw [h1]
  norm_num [limitPrice, toFixedVal, jsRound, tickSize, priceDecimals, priceAdjustment]

/-- Claim C6 (amended): re-quantization is the identity exactly when the
first limit price is small — below 250 ticks for a buy, at most 250 ticks
for a sell; otherwise the re-applied bias moves the price by at least one
tick (upward for a buy, downward for a sell), so the results differ. -/
theorem quantize_idem_small (raw : ℚ) (sz : Nat) (hraw : 0 < raw) :
    (limitPrice raw Side.buy sz < 250 * tickSize sz →
      limitPrice (limitPrice raw Side.buy sz) Side.buy sz = limitPrice raw Side.buy sz) ∧
    (250 * tickSize sz ≤ limitPrice raw Side.buy sz →
      limitPrice raw Side.buy sz + tickSize sz
        ≤ limitPrice (limitPrice raw Side.buy sz) Side.buy sz) ∧
    (limitPrice raw Side.sell sz ≤ 250 * tickSize sz →
      limitPrice (limitPrice raw Side.sell sz) Side.sell sz = limitPrice raw Side.sell sz) ∧
    (250 * tickSize sz < limitPrice raw Side.sell sz →
      limitPrice (limitPrice raw Side.sell sz) Side.sell sz
        ≤ limitPrice raw Side.sell sz - tickSize sz) := by
  have ht := tickSize_pos sz
  refine ⟨?_, ?_, ?_, ?_⟩
  · intro hL
    have hx : 0 < raw * priceAdjustment Side.buy / tickSize sz := by
      apply div_pos _ ht
      apply mul_pos hraw
      norm_num [priceAdjustment]
    have hk0 : 0 ≤ jsRound (raw * priceAdjustment Side.buy / tickSize sz) := by
      unfold jsRound
      exact Int.floor_nonneg.mpr (by linarith)
    have hklt : jsRound (raw * priceAdjustment Side.buy / tickSize sz) < 250 := by
      rw [limitPrice_eq] at hL
      have := (mul_lt_mul_right ht).mp hL
      exact_mod_cast this
    rw [limitPrice_eq raw Side.buy sz]
    exact limitPrice_tickM_buy _ sz hk0 hklt
  · intro hL
    have hkge : 250 ≤ jsRound (raw * priceAdjustment Side.buy / tickSize sz) := by
      rw [limitPrice_eq] at hL
      have := (mul_le_mul_right ht).mp hL
      exact_mod_cast this
    rw [limitPrice_eq raw Side.buy sz]
    exact limitPrice_tickM_buy_large _ sz hkge
  · intro hL
    have hx : 0 < raw * priceAdjustment Side.sell / tickSize sz := by
      apply div_pos _ ht
      apply mul_pos hraw
      norm_num [priceAdjustment]
    have hk0 : 0 ≤ jsRound (raw * priceAdjustment Side.sell / tickSize sz) := by
      unfold jsRound
      exact Int.floor_nonneg.mpr (by linarith)
    have hkle : jsRound (raw * priceAdjustment Side.sell / tickSize sz) ≤ 250 := by
      rw [limitPrice_eq] at hL
      have := (mul_le_mul_right ht).mp hL
      exact_mod_cast this
    rw [limitPrice_eq raw Side.sell sz]
    exact limitPrice_tickM_sell _ sz hk0 hkle
  · intro hL
    have hkgt : 250 < jsRound (raw * priceAdjustment Side.sell / tickSize sz) := by
      rw [limitPrice_eq] at hL
      have := (mul_lt_mul_right ht).mp hL
      exact_mod_cast this
    rw [limitPrice_eq raw Side.sell sz]
    exact limitPrice_tickM_sell_large _ sz hkgt

/-- Claim C6 witness: at raw price 100 with `szDecimals = 5` the quantized
price is 100 (< 250 ticks) and re-quantization fixes it; at raw price
50000 the quantized price 50100 is ≥ 250 ticks and re-quantization moves
it up by at least one tick. -/
theorem quantize_idem_small_witness :
    (limitPrice (limitPrice 100 Side.buy 5) Side.buy 5 = limitPrice 100 Side.buy 5) ∧
    (limitPrice 50000 Side.buy 5 + tickSize 5
      ≤ limitPrice (limitPrice 50000 Side.buy 5) Side.buy 5) :=
  ⟨(quantize_idem_small 100 5 (by norm_num)).1
      (by norm_num [limitPrice, toFixedVal, jsRound, tickSize, priceDecimals, priceAdjustment]),
   (quantize_idem_small 50000 5 (by norm_num)).2.1
      (by norm_num [limitPrice, toFixedVal, jsRound, tickSize, priceDecimals, priceAdjustment])⟩

/-- Claim C7 (confirmed): every quantized limit price is an exact integer
multiple of the tick size implied by `szDecimals` by the step function. -/
theorem limitPrice_tick_multiple :
    ∀ (raw : ℚ) (side : Side) (sz : Nat),
      ∃ k : ℤ, limitPrice raw side sz = (k : ℚ) * tickSize sz :=
  fun raw side sz =>
    ⟨jsRound (raw * priceAdjustment side / tickSize sz), limitPrice_eq raw side sz⟩

/-! ### Concrete fixtures for witnesses and counterexamples -/

/-- A representative request: long 0.01 BTC at 5x, key under `hl_key1`. -/
def reqBTC : TradeRequest :=
  { coin := "BTC", side := Side.buy, size := "0.01", leverage := some "5"
    reduceOnly := none, pk_name := "hl_key1", vault_name := none }

/-- A `filled`-shaped exchange reply. -/
def respFilled : OrderResult :=
  ⟨⟨"order", some ⟨[⟨some ⟨some "50010", "0.01", 77⟩, none, none⟩]⟩⟩⟩

/-- A world where every outbound call succeeds. -/
def baseWorld : World :=
  { workspaceId := some 1
    apiKey := some "key"
    secretsList := Fetch.ok [⟨1, "hl_key1"⟩]
    secretValue := fun _ => Fetch.ok "0xabc"
    allMids := Except.ok [("BTC", 50000)]
    metaLev := Except.ok [⟨"BTC", 5⟩]
    updateLeverage := Except.ok ()
    metaMain := Except.ok [⟨"BTC", 5⟩]
    order := Except.ok respFilled }

/-! ### Claim C1 -/

/-- Claim C1 (confirmed): `run` is a total function (it never raises), and
whenever the `try` body ends in an uncaught exception, the result is the
structured `{success:false, error:<message>}` object built by the
top-level `catch`. -/
theorem run_catches_exceptions (req : TradeRequest) (w : World) (e : String)
    (h : tradeBody req w = Except.error e) :
    run req w = (catchResult e, none) ∧
    (run req w).1.success = false ∧
    (run req w).1.error = some (if e.isEmpty then "Unknown error" else e) := by
  have hr : run req w = (catchResult e, none) := by
    unfold run
    rw [h]
  refine ⟨hr, ?_, ?_⟩ <;> rw [hr] <;> rfl

/-- Claim C1 witness: a thrown secret-listing fetch is caught and reported. -/
theorem run_catches_exceptions_witness :
    run reqBTC { baseWorld with secretsList := Fetch.thrown "network down" }
      = (catchResult "network down", none) ∧
    (run reqBTC { baseWorld with secretsList := Fetch.thrown "network down" }).1.success = false ∧
    (run reqBTC { baseWorld with secretsList := Fetch.thrown "network down" }).1.error
      = some "network down" :=
  run_catches_exceptions reqBTC _ "network down" rfl

/-! ### Claim C2 -/

/-- Claim C2, counterexample: with a leverage field set, the leverage step
itself halts the pipeline when the coin is missing from the universe it
fetches — the early `return` inside the `try` block is not caught — so a
leverage-step failure can prevent order submission (no order payload). -/
theorem leverage_asset_missing_halts :
    run reqBTC { baseWorld with metaLev := Except.ok [⟨"ETH", 3⟩] }
      = (errResult "Asset BTC not found in universe", none) := by
  rfl

/-- Claim C2 (amended): a *thrown* failure inside the leverage step — the
metadata fetch or the `updateLeverage` call rejecting — is caught and
logged, and the pipeline still reaches order submission unchanged, on the
account's previously configured leverage; only the uncaught early return
for a coin absent from the universe can halt the step. -/
theorem leverage_throw_still_submits
    (req : TradeRequest) (w : World)
    (wid : Nat) (key : String) (secrets : List Secret) (pkSec : Secret) (pkRaw : String)
    (va : Option String) (mids : List (String × ℚ)) (price : ℚ) (lev : String)
    (univ : List AssetInfo) (i : Nat) (ainfo : AssetInfo) (resp : OrderResult)
    (hws : w.workspaceId = some wid) (hkey : w.apiKey = some key)
    (hlist : w.secretsList = Fetch.ok secrets)
    (hpk : List.find? (fun s => s.name == req.pk_name) secrets = some pkSec)
    (hpkv : w.secretValue pkSec.id = Fetch.ok pkRaw)
    (hv : resolveVault w secrets req = Except.ok va)
    (hmids : w.allMids = Except.ok mids)
    (hprice : List.lookup req.coin mids = some price)
    (hlev : req.leverage = some lev)
    (hfail : (∃ e, w.metaLev = Except.error e) ∨
             (∃ u p, w.metaLev = Except.ok u ∧ findAsset u req.coin = some p ∧
               ∃ e, w.updateLeverage = Except.error e))
    (hmeta : w.metaMain = Except.ok univ)
    (hasset : findAsset univ req.coin = some (i, ainfo))
    (hord : w.order = Except.ok resp) :
    run req w =
      (classifyOutcome req (limitPrice price req.side ainfo.szDecimals) resp,
       some { asset := i
              isBuy := req.side.isBuy
              limitPrice := limitPrice price req.side ainfo.szDecimals
              size := req.size
              reduceOnly := req.reduceOnly.getD false
              wallet := stripQuotes pkRaw
              vaultAddress := va }) := by
  have hstep : leverageStep w req = none := by
    rcases hfail with ⟨e, he⟩ | ⟨u, p, hu, hp, e, he⟩
    · simp [leverageStep, hlev, he]
    · simp [leverageStep, hlev, hu, hp, he]
  simp [run, tradeBody, hws, hkey, hlist, hpk, hpkv, hv, hmids, hprice, hstep,
    hmeta, hasset, hord]

/-- Claim C2 witness: `updateLeverage` rejecting does not stop the order
from being submitted and classified. -/
theorem leverage_throw_still_submits_witness :
    run reqBTC { baseWorld with updateLeverage := Except.error "rejected" }
      = (classifyOutcome reqBTC (limitPrice 50000 Side.buy 5) respFilled,
         some { asset := 0
                isBuy := true
                limitPrice := limitPrice 50000 Side.buy 5
                size := "0.01"
                reduceOnly := false
                wallet := "0xabc"
                vaultAddress := none }) :=
  leverage_throw_still_submits reqBTC _ 1 "key" [⟨1, "hl_key1"⟩] ⟨1, "hl_key1"⟩ "0xabc"
    none [("BTC", 50000)] 50000 "5" [⟨"BTC", 5⟩] 0 ⟨"BTC", 5⟩ respFilled
    rfl rfl rfl rfl rfl rfl rfl rfl rfl
    (Or.inr ⟨[⟨"BTC", 5⟩], (0, ⟨"BTC", 5⟩), rfl, rfl, "rejected", rfl⟩)
    rfl rfl rfl

/-! ### Claim C3 -/

/-- Claim C3, counterexample: a `filled` status with `avgPx` absent is
classified as a successful fill whose `avgFillPrice` field is simply
absent — the returned object does not fall back to the computed limit
price (that fallback exists only in the console log). -/
theorem filled_without_avgPx_no_fallback :
    (classifyOutcome reqBTC 50100 ⟨⟨"order", some ⟨[⟨some ⟨none, "0.01", 5⟩, none, none⟩]⟩⟩⟩).success
        = true ∧
    (classifyOutcome reqBTC 50100 ⟨⟨"order", some ⟨[⟨some ⟨none, "0.01", 5⟩, none, none⟩]⟩⟩⟩).avgFillPrice
        = none := by
  constructor <;> rfl

/-- Claim C3 (amended): classification is total and by structural shape —
`filled` yields the fill result with the reported average price taken
verbatim (absent if the exchange omitted it), `error` yields a rejection
with the message passed through, `resting` yields the resting result with
the order id, and anything else yields the malformed result carrying the
full raw response; formally, the implemented classifier factors through
the spec's `OrderOutcome` union. -/
theorem classify_refines_spec :
    ∀ (req : TradeRequest) (lp : ℚ) (r : OrderResult),
      classifyOutcome req lp r = outcomeToResult req (classifySpec r) := by
  intro req lp r
  obtain ⟨⟨rt, data⟩⟩ := r
  unfold classifyOutcome classifySpec
  dsimp only
  by_cases h : (rt == "order") = true
  · rw [if_pos h, if_pos h]
    cases data with
    | none => rfl
    | some d =>
      obtain ⟨sts⟩ := d
      cases sts with
      | nil => rfl
      | cons st rest =>
        obtain ⟨f, er, rs⟩ := st
        cases f <;> cases er <;> cases rs <;> rfl
  · rw [if_neg h, if_neg h]
    rfl

/-! ### Claim C8 -/

/-- Claim C8 (confirmed): when the private-key secret name is absent from
the listing, the operation fails with an error naming the secret and an
`availableSecrets` payload equal to the names of all listed secrets. -/
theorem secret_not_found_reports_available
    (req : TradeRequest) (w : World) (wid : Nat) (key : String) (secrets : List Secret)
    (hws : w.workspaceId = some wid) (hkey : w.apiKey = some key)
    (hlist : w.secretsList = Fetch.ok secrets)
    (habs : req.pk_name ∉ secrets.map Secret.name) :
    run req w
      = ({ success := false
           error := some ("Secret \"" ++ req.pk_name ++ "\" not found in OpenServ workspace")
           availableSecrets := some (secrets.map Secret.name) }, none) := by
  have hfind : List.find? (fun s => s.name == req.pk_name) secrets = none := by
    rw [List.find?_eq_none]
    intro s hs
    simp only [beq_iff_eq]
    intro h
    exact habs (List.mem_map.mpr ⟨s, hs, h⟩)
  simp [run, tradeBody, hws, hkey, hlist, hfind]

/-- Claim C8 witness: asking for `missing` against a listing `k1, k2`
reports both names. -/
theorem secret_not_found_reports_available_witness :
    run { reqBTC with pk_name := "missing" }
        { baseWorld with secretsList := Fetch.ok [⟨1, "k1"⟩, ⟨2, "k2"⟩] }
      = ({ success := false
           error := some ("Secret \"" ++ "missing" ++ "\" not found in OpenServ workspace")
           availableSecrets := some (List.map Secret.name [⟨1, "k1"⟩, ⟨2, "k2"⟩]) }, none) :=
  secret_not_found_reports_available { reqBTC with pk_name := "missing" } _ 1 "key"
    [⟨1, "k1"⟩, ⟨2, "k2"⟩] rfl rfl rfl (by decide)

/-! ### Claim C9 -/

/-- Claim C9, counterexample: a raw value with only a leading quote is not
returned unchanged — the global regex `/^"|"$/g` strips a leading and a
trailing quote independently, so `"abc` becomes `abc`. -/
theorem stripQuotes_lone_leading_changed :
    stripQuotes "\"abc" ≠ "\"abc" ∧ stripQuotes "\"abc" = "abc" := by
  constructor <;> decide

/-- Claim C9 (amended): the resolved value is the raw string with a
leading quote removed if present and a trailing quote (of what remains)
removed if present, each independently: an enclosing pair loses both, a
lone leading or lone trailing quote is also removed, and a quote-free
string is unchanged. -/
theorem stripQuotes_spec (l : List Char) :
    (l.head? ≠ some '"' → l.getLast? ≠ some '"' → stripQuotesL l = l) ∧
    (l.head? = some '"' → l.tail.getLast? ≠ some '"' → stripQuotesL l = l.tail) ∧
    (l.head? ≠ some '"' → l.getLast? = some '"' → stripQuotesL l = l.dropLast) ∧
    (l.head? = some '"' → l.tail.getLast? = some '"' → stripQuotesL l = l.tail.dropLast) := by
  unfold stripQuotesL
  refine ⟨?_, ?_, ?_, ?_⟩ <;> intro h1 h2 <;> simp [h1, h2]

/-- Claim C9 witness: the lone-leading-quote case of the characterization,
evaluated at `"abc`. -/
theorem stripQuotes_spec_witness :
    stripQuotesL ("\"abc".data) = ("\"abc".data).tail :=
  (stripQuotes_spec ("\"abc".data)).2.1 (by decide) (by decide)

/-! ### Claim C10 -/

/-- Claim C10, counterexample: when the vault value fetch *throws* (the
promise rejects), nothing catches it locally — the run aborts with the
generic failure result and the order is never submitted. -/
theorem vault_fetch_throw_aborts :
    run { reqBTC with leverage := none, vault_name := some "hl_vault1" }
        { baseWorld with
            secretsList := Fetch.ok [⟨1, "hl_key1"⟩, ⟨2, "hl_vault1"⟩]
            secretValue := fun id => if id = 1 then Fetch.ok "0xabc"
              else Fetch.thrown "network error" }
      = ({ success := false, error := some "network error" }, none) := by
  rfl

/-- Claim C10 (amended): if the named vault secret is absent from the
listing, or its value fetch resolves with a non-ok HTTP status, the
pipeline continues to order submission with no vault address, trading on
the wallet's own account; only a *thrown* vault value fetch aborts the
run. -/
theorem vault_missing_continues
    (req : TradeRequest) (w : World)
    (wid : Nat) (key : String) (secrets : List Secret) (pkSec : Secret) (pkRaw : String)
    (vn : String) (mids : List (String × ℚ)) (price : ℚ)
    (univ : List AssetInfo) (i : Nat) (ainfo : AssetInfo) (resp : OrderResult)
    (hws : w.workspaceId = some wid) (hkey : w.apiKey = some key)
    (hlist : w.secretsList = Fetch.ok secrets)
    (hpk : List.find? (fun s => s.name == req.pk_name) secrets = some pkSec)
    (hpkv : w.secretValue pkSec.id = Fetch.ok pkRaw)
    (hvn : req.vault_name = some vn)
    (hvfail : List.find? (fun s => s.name == vn) secrets = none ∨
              (∃ vs st, List.find? (fun s => s.name == vn) secrets = some vs ∧
                w.secretValue vs.id = Fetch.httpError st))
    (hmids : w.allMids = Except.ok mids)
    (hprice : List.lookup req.coin mids = some price)
    (hlevnone : leverageStep w req = none)
    (hmeta : w.metaMain = Except.ok univ)
    (hasset : findAsset univ req.coin = some (i, ainfo))
    (hord : w.order = Except.ok resp) :
    run req w =
      (classifyOutcome req (limitPrice price req.side ainfo.szDecimals) resp,
       some { asset := i
              isBuy := req.side.isBuy
              limitPrice := limitPrice price req.side ainfo.szDecimals
              size := req.size
              reduceOnly := req.reduceOnly.getD false
              wallet := stripQuotes pkRaw
              vaultAddress := none }) := by
  have hv : resolveVault w secrets req = Except.ok none := by
    rcases hvfail with h | ⟨vs, st, hfind, hval⟩
    · simp [resolveVault, hvn, h]
    · simp [resolveVault, hvn, hfind, hval]
  simp [run, tradeBody, hws, hkey, hlist, hpk, hpkv, hv, hmids, hprice, hlevnone,
    hmeta, hasset, hord]

/-- Claim C10 witness: a vault value fetch answered with HTTP 500 leaves
the pipeline on the wallet's own account and the order still goes out. -/
theorem vault_missing_continues_witness :
    run { reqBTC with leverage := none, vault_name := some "hl_vault1" }
        { baseWorld with
            secretsList := Fetch.ok [⟨1, "hl_key1"⟩, ⟨2, "hl_vault1"⟩]
            secretValue := fun id => if id = 1 then Fetch.ok "0xabc"
              else Fetch.httpError 500 }
      = (classifyOutcome { reqBTC with leverage := none, vault_name := some "hl_vault1" }
           (limitPrice 50000 Side.buy 5) respFilled,
         some { asset := 0
                isBuy := true
                limitPrice := limitPrice 50000 Side.buy 5
                size := "0.01"
                reduceOnly := false
                wallet := "0xabc"
                vaultAddress := none }) :=
  vault_missing_continues { reqBTC with leverage := none, vault_name := some "hl_vault1" } _
    1 "key" [⟨1, "hl_key1"⟩, ⟨2, "hl_vault1"⟩] ⟨1, "hl_key1"⟩ "0xabc" "hl_vault1"
    [("BTC", 50000)] 50000 [⟨"BTC", 5⟩] 0 ⟨"BTC", 5⟩ respFilled
    rfl rfl rfl rfl rfl rfl
    (Or.inr ⟨⟨2, "hl_vault1"⟩, 500, rfl, rfl⟩)
    rfl rfl rfl rfl rfl rfl

end Hyperliquid
